import Mathlib

/-!
Shallow embedding of the velcro handler resolution & execution engine.

The definitions below are translated from the TypeScript sources:
* `HandlerExecutor` (`src/handlers/executor.ts`): `execute`, `matchesFilter`,
  and the exit-code + JSON classification performed in the `exit` callbacks of
  `executeCommandHandler`, `executeExternalHandler` and `executeVelcroHandler`.
* `velcro-runner.ts`: the `process.exit` interception inside the isolated
  subprocess and the mapping of the thrown signal back to an exit status.
* `HandlerResolver` (`src/handlers/resolver.ts`): `resolveHandlers`,
  `shouldRunHandler`.
* `ProjectConfigManager.isHandlerEnabled` (`src/config/project-config.ts`),
  `SessionStateManager.isHookEnabledForSession` (`src/session/state.ts`).
* The `/hooks` result-processing loop and response construction in
  `startHTTPServer` (`src/server/http-server.ts`).

Host-runtime services that are not part of the repository are abstracted as
explicit parameters: JavaScript regular-expression compilation is a function
`String → Option (String → Bool)` (`none` models a pattern that fails to
compile), and `JSON.parse` of captured stdout is a function
`String → Option CcguardResponse` (`none` models a parse failure; a JSON text
that starts with a brace parses, when it parses, to an object, and the engine
only ever inspects its `decision` and `reason` fields).
-/

namespace Velcro

/-- The `decision`/`reason` fields the engine reads off a parsed JSON response
(`CcguardResponse` in `executor.ts`). -/
structure CcguardResponse where
  decision : Option String
  reason : Option String
deriving DecidableEq, Repr

/-- Embedding of `HookExecutionResult` from `executor.ts`.  Optional TypeScript fields are
`Option`s; `blockExecution?: boolean` is only ever assigned `true` by the code,
and `none` models the field being absent (`undefined`). -/
structure HookExecutionResult where
  handler : String
  success : Bool
  output : Option String := none
  stderr : Option String := none
  exitCode : Option Int := none
  response : Option CcguardResponse := none
  blockExecution : Option Bool := none
  error : Option String := none
  duration : Nat := 0
deriving DecidableEq, Repr

/-- A handler definition (`HandlerSchema` in `config/index.ts`).  The `type`
field is a string so that the executor's `default: throw` branch for an
unknown handler type is expressible, exactly as the unit tests exercise it
with `type: 'unknown' as any`. -/
structure Handler where
  name : String
  enabled : Bool := true
  hooks : List String
  type : String := "velcro"
  code : Option String := none
  command : Option String := none
  script : Option String := none
  args : Option (List String) := none
  env : Option (List (String × String)) := none
  packages : List String := []
  matcher : Option String := none
deriving DecidableEq, Repr

/-- The fields of an incoming hook event that the core reads
(`HookData` in `types/hooks.ts`).  `tool_name` is `some s` when the event
carries the field; JavaScript truthiness of `hookData.tool_name` is
`tool_name = some s` with `s ≠ ""`. -/
structure HookData where
  hook_event_name : String
  session_id : String
  cwd : Option String := none
  transcript_path : Option String := none
  tool_name : Option String := none
deriving DecidableEq, Repr

/-- JavaScript `String.prototype.trim`, computed over the character list of
the string model (the built-in `String.trim` does not reduce in the kernel). -/
def jsTrim (s : String) : String :=
  ⟨((s.data.dropWhile Char.isWhitespace).reverse.dropWhile
      Char.isWhitespace).reverse⟩

/-- JavaScript `s.startsWith('\x7b')`: the first character is an opening
brace. -/
def jsStartsWithBrace (s : String) : Bool :=
  match s.data with
  | [] => false
  | c :: _ => c = '\x7b'

/-- JavaScript `x || d` for a possibly-null number (`code || 0`): `null` and
the falsy number `0` both give the default. -/
def jsOrInt (x : Option Int) (d : Int) : Int :=
  match x with
  | none => d
  | some c => if c = 0 then d else c

/-- JavaScript `x || d` for a possibly-undefined string: `undefined` and the
falsy empty string both give the default. -/
def jsOrStr (x : Option String) (d : String) : String :=
  match x with
  | none => d
  | some s => if s = "" then d else s

/-- Embedding of `EXIT_CODE.SUCCESS` from `constants.ts`. -/
def EXIT_CODE_SUCCESS : Int := 0

/-- Embedding of `EXIT_CODE.ERROR` from `constants.ts`. -/
def EXIT_CODE_ERROR : Int := 1

/-- Embedding of `EXIT_CODE.BLOCK` from `constants.ts`. -/
def EXIT_CODE_BLOCK : Int := 2

/-- The `exit` callback of `HandlerExecutor.executeCommandHandler`
(`executor.ts` lines 229-287): record exit code and trimmed output, attempt a
JSON parse when stdout starts with a brace, apply the ccguard
`decision` handling, then apply the exit-code handling, which can override the
JSON response.  `code = none` models the child exiting on a signal
(`code === null`); `parse` models `JSON.parse` on the trimmed stdout. -/
def commandExitClassify (name : String) (code : Option Int)
    (stdoutRaw stderrRaw : String)
    (parse : String → Option CcguardResponse) : HookExecutionResult :=
  let out := jsTrim stdoutRaw
  let errS := jsTrim stderrRaw
  let r0 : HookExecutionResult :=
    { handler := name, success := false, output := some out,
      stderr := some errS, exitCode := some (jsOrInt code 0) }
  let r1 :=
    if out ≠ "" ∧ jsStartsWithBrace out then
      match parse out with
      | some resp =>
        let r := { r0 with response := some resp }
        if resp.decision = some ("block") then
          let keepStderr : Bool :=
            if ((resp.reason = none ∨ resp.reason = some "") ∧ errS ≠ "") then
              true
            else if (errS ≠ "" ∧ resp.reason ≠ some errS) then
              true
            else
              false
          { r with blockExecution := some true, success := false,
                   stderr := some (if keepStderr then errS else ""),
                   output := some "" }
        else if resp.decision = some ("approve") then
          { r with success := true, output := some "" }
        else
          r
      | none => r0
    else r0
  if code = some EXIT_CODE_BLOCK then
    { r1 with blockExecution := some true, success := false }
  else if code ≠ some 0 ∧ code ≠ none then
    { r1 with success := false }
  else if r1.response = none then
    { r1 with success := true }
  else
    r1

/-- The `exit` callback of `HandlerExecutor.executeExternalHandler`
(`executor.ts` lines 491-548); its classification logic is textually identical
to the command handler's. -/
def externalExitClassify (name : String) (code : Option Int)
    (stdoutRaw stderrRaw : String)
    (parse : String → Option CcguardResponse) : HookExecutionResult :=
  let out := jsTrim stdoutRaw
  let errS := jsTrim stderrRaw
  let r0 : HookExecutionResult :=
    { handler := name, success := false, output := some out,
      stderr := some errS, exitCode := some (jsOrInt code 0) }
  let r1 :=
    if out ≠ "" ∧ jsStartsWithBrace out then
      match parse out with
      | some resp =>
        let r := { r0 with response := some resp }
        if resp.decision = some ("block") then
          let keepStderr : Bool :=
            if ((resp.reason = none ∨ resp.reason = some "") ∧ errS ≠ "") then
              true
            else if (errS ≠ "" ∧ resp.reason ≠ some errS) then
              true
            else
              false
          { r with blockExecution := some true, success := false,
                   stderr := some (if keepStderr then errS else ""),
                   output := some "" }
        else if resp.decision = some ("approve") then
          { r with success := true, output := some "" }
        else
          r
      | none => r0
    else r0
  if code = some EXIT_CODE_BLOCK then
    { r1 with blockExecution := some true, success := false }
  else if code ≠ some 0 ∧ code ≠ none then
    { r1 with success := false }
  else if r1.response = none then
    { r1 with success := true }
  else
    r1

/-- The `exit` callback of `HandlerExecutor.executeVelcroHandler`
(`executor.ts` lines 166-189): pure exit-code classification, no JSON
inspection. -/
def velcroExitClassify (name : String) (code : Option Int)
    (stdoutRaw stderrRaw : String) : HookExecutionResult :=
  let r0 : HookExecutionResult :=
    { handler := name, success := false, output := some (jsTrim stdoutRaw),
      stderr := some (jsTrim stderrRaw), exitCode := some (jsOrInt code 0) }
  if code = some EXIT_CODE_SUCCESS ∨ code = none then
    { r0 with success := true }
  else if code = some EXIT_CODE_BLOCK then
    { r0 with blockExecution := some true, success := false }
  else
    { r0 with success := false }

/-- Embedding of `HandlerExecutor.matchesFilter` (`executor.ts` lines 89-108).  The first
component is the boolean the executor uses; the second records whether the
invalid-regex diagnostic (`console.error`) was emitted.  `regexCompile` models
`new RegExp`: `none` is a pattern that throws on compilation, `some test` the
compiled `test` method. -/
def matchesFilter (regexCompile : String → Option (String → Bool))
    (matcher : String) (toolName : Option String) : Bool × Bool :=
  match toolName with
  | some tool =>
    if tool ≠ "" then
      if matcher = "*" ∨ matcher = "" then (true, false)
      else
        match regexCompile matcher with
        | some test => (test tool, false)
        | none => (true, true)
    else
      (matcher = "" ∨ matcher = "*", false)
  | none => (matcher = "" ∨ matcher = "*", false)

/-- The matcher-skip condition of `HandlerExecutor.execute` (`executor.ts`
line 39): `handler.matcher && !this.matchesFilter(handler.matcher, hookData)`.
An absent matcher never causes a skip. -/
def matcherSkips (regexCompile : String → Option (String → Bool))
    (h : Handler) (toolName : Option String) : Bool :=
  match h.matcher with
  | none => false
  | some m => !(matchesFilter regexCompile m toolName).1

/-- Outcome of running the handler-authored statements inside the
`velcro-runner` subprocess: the async function returns normally, invokes the
wrapped `process.exit` (with or without an argument), or throws an ordinary
error.  A failure to `JSON.parse` the stdin payload behaves like `threw`. -/
inductive VelcroHandlerOutcome where
  | completed
  | exitCalled (code : Option Int)
  | threw (msg : String)
deriving DecidableEq, Repr

/-- The typed signal thrown by the wrapped `process.exit` inside
`velcro-runner.ts`: an `Error` carrying an `exitCode` property. -/
structure VelcroExitSignal where
  message : String
  exitCode : Option Int
deriving DecidableEq, Repr

/-- Embedding of `wrappedProcess.exit` in `velcro-runner.ts` (lines 46-57): instead of
exiting, throw an error carrying the intended exit status. -/
def wrappedProcessExit (code : Option Int) : VelcroExitSignal :=
  { message := "Handler exited with code " ++
      (match code with | some n => toString n | none => "undefined"),
    exitCode := code }

/-- The catch clause of the `stdin end` handler in `velcro-runner.ts`
(lines 63-76) applied to a thrown exit signal: when the error carries a
numeric `exitCode`, the subprocess exits with
`exitCode || EXIT_CODE.ERROR`; an `undefined` `exitCode` falls through to the
other-errors path, which exits with `EXIT_CODE.ERROR`. -/
def runnerCatchStatus (sig : VelcroExitSignal) : Int :=
  match sig.exitCode with
  | some c => jsOrInt (some c) EXIT_CODE_ERROR
  | none => EXIT_CODE_ERROR

/-- Actual exit status of the `velcro-runner` subprocess as a function of the
handler outcome (`velcro-runner.ts` lines 24-77): normal completion exits
`EXIT_CODE.SUCCESS`; an intercepted `process.exit` signal is mapped by the
catch clause; any other thrown error exits `EXIT_CODE.ERROR`. -/
def runnerExitStatus (o : VelcroHandlerOutcome) : Int :=
  match o with
  | .completed => EXIT_CODE_SUCCESS
  | .exitCalled code => runnerCatchStatus (wrappedProcessExit code)
  | .threw _ => EXIT_CODE_ERROR

/-- Per-session enable/disable sets (`SessionHookState` in
`session/state.ts`). -/
structure SessionHookState where
  enabledHooks : List String := []
  disabledHooks : List String := []
deriving DecidableEq, Repr

/-- The in-memory session map of `SessionStateManager`. -/
def SessionMap := List (String × SessionHookState)

/-- Embedding of `SessionStateManager.isHookEnabledForSession` (`session/state.ts`):
`none` when no session override exists, the disabled set screening before the
enabled set. -/
def isHookEnabledForSession (sessions : SessionMap)
    (sessionId hookName : String) : Option Bool :=
  match sessions.lookup sessionId with
  | none => none
  | some s =>
    if s.disabledHooks.contains hookName then some false
    else if s.enabledHooks.contains hookName then some true
    else none

/-- A project-level partial handler override (`Partial<Handler>` in
`project-config.ts`): every field optional, present fields win in the shallow
merge `{ ...handler, ...overrides }`. -/
structure HandlerOverride where
  name : Option String := none
  enabled : Option Bool := none
  hooks : Option (List String) := none
  type : Option String := none
  code : Option (Option String) := none
  command : Option (Option String) := none
  script : Option (Option String) := none
  matcher : Option (Option String) := none
deriving DecidableEq, Repr

/-- Embedding of `ProjectHookConfig` from `project-config.ts`. -/
structure ProjectHookConfig where
  enabled : Option (List String) := none
  disabled : Option (List String) := none
  overrides : List (String × HandlerOverride) := []
deriving DecidableEq, Repr

/-- Embedding of `ProjectConfig` from `project-config.ts`; the loaded configuration is
passed in explicitly (`loadProjectConfig` reads it from disk, `none` when no
`.velcro/project.json` is found or it fails to parse). -/
structure ProjectConfig where
  hooks : Option ProjectHookConfig := none
deriving DecidableEq, Repr

/-- Embedding of `ProjectConfigManager.isHandlerEnabled` (`project-config.ts` lines
240-259): no project hooks section falls back to the handler's own flag; an
explicit disable takes precedence over an explicit enable. -/
def isHandlerEnabled (project : Option ProjectConfig)
    (handlerName : String) (globalEnabled : Bool) : Bool :=
  match project with
  | none => globalEnabled
  | some pc =>
    match pc.hooks with
    | none => globalEnabled
    | some hk =>
      if (hk.disabled.getD []).contains handlerName then false
      else if (hk.enabled.getD []).contains handlerName then true
      else globalEnabled

/-- Embedding of `ProjectConfigManager.getHandlerOverrides`. -/
def getHandlerOverrides (project : Option ProjectConfig)
    (handlerName : String) : Option HandlerOverride :=
  match project with
  | none => none
  | some pc =>
    match pc.hooks with
    | none => none
    | some hk => hk.overrides.lookup handlerName

/-- The shallow merge `{ ...handler, ...overrides }` performed by
`HandlerResolver.resolveHandlers`. -/
def mergeHandler (h : Handler) (o : HandlerOverride) : Handler :=
  { h with
    name := o.name.getD h.name,
    enabled := o.enabled.getD h.enabled,
    hooks := o.hooks.getD h.hooks,
    type := o.type.getD h.type,
    code := o.code.getD h.code,
    command := o.command.getD h.command,
    script := o.script.getD h.script,
    matcher := o.matcher.getD h.matcher }

/-- Embedding of `HandlerResolver.shouldRunHandler` (`resolver.ts` lines 124-147): a
session override, when present, is returned immediately; only on the
no-override path are the project/global enablement computed and the
hook-type membership checked. -/
def shouldRunHandler (sessions : SessionMap) (project : Option ProjectConfig)
    (h : Handler) (hd : HookData) : Bool :=
  match isHookEnabledForSession sessions hd.session_id h.name with
  | some b => b
  | none =>
    let projectEnabled := isHandlerEnabled project h.name h.enabled
    if !(h.hooks.contains hd.hook_event_name) then false
    else projectEnabled

/-- Embedding of `HandlerResolver.resolveHandlers` (`resolver.ts` lines 89-119): filter the
global definition list through `shouldRunHandler`, applying project field
overrides to the handlers that pass. -/
def resolveHandlers (allHandlers : List Handler) (sessions : SessionMap)
    (project : Option ProjectConfig) (hd : HookData) : List Handler :=
  allHandlers.filterMap (fun h =>
    if shouldRunHandler sessions project h hd then
      match getHandlerOverrides project h.name with
      | some o => some (mergeHandler h o)
      | none => some h
    else none)

/-- Observable side effects of one `HandlerExecutor.execute` invocation that
the specification talks about: spawning a subprocess, recording statistics
(`statsManager.recordExecution`), and debug logging. -/
inductive ExecEffect where
  | spawned (cmd : String)
  | statsRecorded (handlerName : String) (duration : Nat) (success : Bool)
      (error : Option String)
  | logged (msg : String)
deriving DecidableEq, Repr

/-- A value thrown inside `execute`'s `try` block: an `Error` with its
message, whether it carries a `blockExecution` property, and an optional
`stderr` property (both read by the catch clause). -/
structure ThrownErr where
  message : String
  hasBlockExecution : Bool := false
  stderr : Option String := none
deriving DecidableEq, Repr

/-- The body of the `switch (handler.type)` dispatch in
`HandlerExecutor.execute` (`executor.ts` lines 51-64) together with the
missing-payload guards at the top of each `executeXHandler`:
a missing payload or an unknown type throws synchronously; otherwise the
type-specific executor runs, and its behaviour — which depends on the spawned
subprocess or the handler-authored code, both outside this embedding — is
supplied as the oracle `branch` (`.error` models it throwing or rejecting). -/
def dispatch (h : Handler)
    (branch : Except ThrownErr (HookExecutionResult × List ExecEffect)) :
    Except ThrownErr (HookExecutionResult × List ExecEffect) :=
  if h.type = "velcro" then
    if h.code = none then
      .error { message := "Velcro handler " ++ h.name ++ " has no code" }
    else branch
  else if h.type = "command" then
    if h.command = none then
      .error { message := "Command handler " ++ h.name ++ " has no command" }
    else branch
  else if h.type = "script" then
    if h.script = none then
      .error { message := "Script handler " ++ h.name ++ " has no script path" }
    else branch
  else if h.type = "function" then
    if h.code = none then
      .error { message := "Function handler " ++ h.name ++ " has no code" }
    else branch
  else if h.type = "external" then
    if h.command = none then
      .error { message := "External handler " ++ h.name ++ " has no command" }
    else branch
  else
    .error { message := "Unknown handler type: " ++ h.type }

/-- Embedding of `HandlerExecutor.execute` (`executor.ts` lines 29-87).  The matcher-skip
branch returns `success = true` before any dispatch; a thrown error is caught
and folded into the result; and the `finally` block sets `duration` (modelled
by the elapsed wall-clock time `elapsed`) and records statistics on every
path.  The returned effect list is in program order. -/
def executeModel (regexCompile : String → Option (String → Bool))
    (branch : Except ThrownErr (HookExecutionResult × List ExecEffect))
    (h : Handler) (hd : HookData) (elapsed : Nat) :
    HookExecutionResult × List ExecEffect :=
  let base : HookExecutionResult := { handler := h.name, success := false }
  if matcherSkips regexCompile h hd.tool_name then
    let r := { base with success := true, duration := elapsed }
    (r, [.logged ("Handler " ++ h.name ++ " skipped due to matcher"),
         .statsRecorded h.name elapsed r.success r.error])
  else
    match dispatch h branch with
    | .ok (r, effs) =>
      let r := { r with duration := elapsed }
      (r, effs ++ [.statsRecorded h.name elapsed r.success r.error])
    | .error e =>
      let r :=
        { base with
          success := false,
          error := some e.message,
          blockExecution :=
            if e.hasBlockExecution then some true else base.blockExecution,
          stderr :=
            if e.hasBlockExecution then some (jsOrStr e.stderr e.message)
            else base.stderr,
          duration := elapsed }
      (r, [.statsRecorded h.name elapsed r.success r.error])

/-- One settled promise of the `Promise.allSettled` fan-out in the `/hooks`
endpoint (`http-server.ts` line 85). -/
inductive Settled where
  | fulfilled (r : HookExecutionResult)
  | rejected (msg : String)
deriving DecidableEq, Repr

/-- Accumulator of the `/hooks` result-processing loop (`http-server.ts`
lines 76-124): the pushed results, the `blocked` flag, and the
`blockingResult` variable. -/
structure HookLoopState where
  results : List HookExecutionResult := []
  blocked : Bool := false
  blockingResult : Option HookExecutionResult := none
deriving DecidableEq, Repr

/-- One iteration of the `/hooks` result-processing loop: a fulfilled promise
pushes its result and, when it blocks, sets `blocked` and overwrites
`blockingResult`; a rejected promise pushes a synthetic failure entry for the
handler at the same index. -/
def processOne (st : HookLoopState) (p : Handler × Settled) : HookLoopState :=
  match p.2 with
  | .fulfilled r =>
    let st := { st with results := st.results ++ [r] }
    if r.blockExecution = some true then
      { st with blocked := true, blockingResult := some r }
    else st
  | .rejected msg =>
    { st with results := st.results ++
        [{ handler := p.1.name, success := false, error := some msg,
           duration := 0 }] }

/-- The whole `/hooks` result-processing loop (`http-server.ts` lines
88-124) over the handlers paired with their settled execution promises. -/
def processHookResults (pairs : List (Handler × Settled)) : HookLoopState :=
  pairs.foldl processOne {}

/-- The entry one settled promise contributes to `results` (what `processOne`
pushes). -/
def settleOne (p : Handler × Settled) : HookExecutionResult :=
  match p.2 with
  | .fulfilled r => r
  | .rejected msg =>
    { handler := p.1.name, success := false, error := some msg, duration := 0 }

/-- The blocking result, if any, one settled promise contributes: a fulfilled
result with `blockExecution = true` is exactly what makes the loop set
`blocked` and overwrite `blockingResult`. -/
def blockingEntry (p : Handler × Settled) : Option HookExecutionResult :=
  match p.2 with
  | .fulfilled r => if r.blockExecution = some true then some r else none
  | .rejected _ => none

/-- The fulfilled results with `blockExecution = true`, in resolution order. -/
def blockingList (pairs : List (Handler × Settled)) :
    List HookExecutionResult :=
  pairs.filterMap blockingEntry

/-- The `HookResponse` object built by the `/hooks` endpoint
(`http-server.ts` lines 127-181). -/
structure HookResponse where
  success : Bool
  handlers : Nat
  blocked : Option Bool := none
  blockingHandler : Option String := none
  decision : Option String := none
  reason : Option String := none
  blockingMessage : Option String := none
  output : Option String := none
  responses : Option (List CcguardResponse) := none
deriving DecidableEq, Repr

/-- The `/hooks` response construction (`http-server.ts` lines 139-181):
overall `success` is the negation of `blocked`; when blocked, the handler and
user-facing reason come from the `blockingResult` the loop ended with;
successful non-empty outputs are joined with a blank line; structured JSON
responses are collected independently of the decision. -/
def buildHookResponse (st : HookLoopState) : HookResponse :=
  let base : HookResponse :=
    { success := !st.blocked, handlers := st.results.length }
  let withBlock :=
    if st.blocked then
      match st.blockingResult with
      | some br =>
        let b := { base with blocked := some true,
                             blockingHandler := some br.handler }
        match br.response with
        | some resp =>
          let b := { b with decision := resp.decision, reason := resp.reason }
          if resp.reason = none ∨ resp.reason = some "" ∨
              br.stderr ≠ resp.reason then
            { b with
              blockingMessage := some (jsOrStr br.stderr "Operation blocked") }
          else b
        | none =>
          { b with
            blockingMessage := some (jsOrStr br.stderr "Operation blocked") }
      | none => base
    else base
  let successfulOutputs : List String :=
    (st.results.filter (fun r =>
      r.success && !((r.output.getD "") == "") &&
        !(jsTrim (r.output.getD "") == ""))).map
      (fun r => jsTrim (r.output.getD ""))
  let withOutput :=
    if successfulOutputs.isEmpty then withBlock
    else
      { withBlock with
        output := some (String.intercalate ("\n\n") successfulOutputs) }
  let jsonResponses := st.results.filterMap (fun r => r.response)
  if jsonResponses.isEmpty then withOutput
  else { withOutput with responses := some jsonResponses }

/-- Scenario A's parse oracle: `JSON.parse` on the exact approve payload. -/
def parseApprove : String → Option CcguardResponse := fun s =>
  if s = "\x7b\"decision\":\"approve\"\x7d" then
    some { decision := some ("approve"), reason := none }
  else none

/-- Parse oracle modelling `JSON.parse` on a JSON object with no recognized `decision`
field. -/
def parseNoDecision : String → Option CcguardResponse := fun s =>
  if s = "\x7b\"foo\":\"bar\"\x7d" then
    some { decision := none, reason := none }
  else none

/-- A regex oracle in which every pattern compiles, to an exact-string test
(a regular expression with no metacharacters tests by containment; exact
comparison is one sound instance of it for whole-name patterns). -/
def rcLiteral : String → Option (String → Bool) := fun p =>
  some (fun s => s == p)

/-- A handler attached only to the `PostToolUse` hook. -/
def postOnlyHandler : Handler :=
  { name := "post-only", hooks := ["PostToolUse"], type := "command",
    command := some ("true") }

/-- A session map in which session `s1` force-enables `post-only`. -/
def sessionEnablesPostOnly : SessionMap :=
  [("s1", { enabledHooks := ["post-only"] })]

/-- A `PreToolUse` event from session `s1`. -/
def evPreS1 : HookData :=
  { hook_event_name := "PreToolUse", session_id := "s1" }

/-- A handler whose global `enabled` flag is `false`. -/
def offHandler : Handler :=
  { name := "h1", enabled := false, hooks := ["PreToolUse"],
    type := "command", command := some ("true") }

/-- A project configuration whose include list names `h1`. -/
def projIncludesH1 : ProjectConfig :=
  { hooks := some { enabled := some ["h1"] } }

/-- A `PreToolUse` event from session `s`. -/
def evPre : HookData :=
  { hook_event_name := "PreToolUse", session_id := "s" }

/-- A session map in which session `s` force-disables `h1`. -/
def sessionDisablesH1 : SessionMap :=
  [("s", { disabledHooks := ["h1"] })]

/-- A command handler with a matcher that does not match `TestTool`. -/
def matcherHandler : Handler :=
  { name := "m", hooks := ["PreToolUse"], type := "command",
    command := some ("echo test"), matcher := some ("OtherTool") }

/-- A `PreToolUse` event carrying tool name `TestTool`. -/
def evTool : HookData :=
  { hook_event_name := "PreToolUse", session_id := "s",
    tool_name := some ("TestTool") }

/-- A branch oracle under which the type-specific executor would succeed
after spawning a subprocess. -/
def okBranch : Except ThrownErr (HookExecutionResult × List ExecEffect) :=
  .ok ({ handler := "m", success := true }, [.spawned ("sh")])

/-- A handler whose `type` is none of the five recognized variants. -/
def unknownTypeHandler : Handler :=
  { name := "u", hooks := ["PreToolUse"], type := "weird" }

/-- A fulfilled blocking result from handler `a` with stderr `ra`. -/
def blockResultA : HookExecutionResult :=
  { handler := "a", success := false, stderr := some ("ra"),
    blockExecution := some true }

/-- A fulfilled blocking result from handler `b` with stderr `rb`. -/
def blockResultB : HookExecutionResult :=
  { handler := "b", success := false, stderr := some ("rb"),
    blockExecution := some true }

/-- Two handlers both of whose executions blocked, in resolution order
`a` then `b`. -/
def twoBlockPairs : List (Handler × Settled) :=
  [({ name := "a", hooks := ["PreToolUse"] }, .fulfilled blockResultA),
   ({ name := "b", hooks := ["PreToolUse"] }, .fulfilled blockResultB)]

/-- C1: a subprocess exit code of 2 is a hard override for command and
external handlers — the result always has `success = false` and
`blockExecution = true` whatever stdout held and whatever JSON it parsed to;
in Scenario A, a command that prints `\x7b"decision":"approve"\x7d` and exits
with code 2 yields `success = false`, `blockExecution = true`,
`exitCode = 2`, with the parsed JSON response still captured in `response`. -/
theorem exit_code_two_hard_override :
    ∀ (name stdoutRaw stderrRaw : String)
      (parse : String → Option CcguardResponse),
      (commandExitClassify name (some 2) stdoutRaw stderrRaw parse).success
          = false ∧
      (commandExitClassify name (some 2) stdoutRaw stderrRaw parse).blockExecution
          = some true ∧
      (externalExitClassify name (some 2) stdoutRaw stderrRaw parse).success
          = false ∧
      (externalExitClassify name (some 2) stdoutRaw stderrRaw parse).blockExecution
          = some true ∧
      commandExitClassify ("guard") (some 2)
          ("\x7b\"decision\":\"approve\"\x7d") ("") parseApprove =
        { handler := "guard", success := false, output := some "",
          stderr := some "", exitCode := some 2,
          response := some { decision := some ("approve"), reason := none },
          blockExecution := some true, error := none, duration := 0 } := by
  intro name stdoutRaw stderrRaw parse
  refine ⟨?_, ?_, ?_, ?_, ?_⟩
  · simp [commandExitClassify, EXIT_CODE_BLOCK]
  · simp [commandExitClassify, EXIT_CODE_BLOCK]
  · simp [externalExitClassify, EXIT_CODE_BLOCK]
  · simp [externalExitClassify, EXIT_CODE_BLOCK]
  · decide

/-- C3 (violation witness): `shouldRunHandler` returns a session override
before checking hook types, so `resolveHandlers` KEEPS a session-enabled
handler whose hook-type set does not include the event's hook type —
`post-only` is attached only to `PostToolUse`, yet it is resolved for a
`PreToolUse` event because session `s1` force-enables it. -/
theorem session_override_bypasses_hook_filter :
    resolveHandlers [postOnlyHandler] sessionEnablesPostOnly none evPreS1
        = [postOnlyHandler] ∧
    postOnlyHandler.hooks.contains evPreS1.hook_event_name = false ∧
    resolveHandlers [postOnlyHandler] [] none evPreS1 = [] := by
  decide

/-- C4 (violation witness): a command (or external) subprocess that exits
with code 0 while printing a JSON object with no recognized `decision` field
yields `success = false`, not `success = true`: the parsed response is
captured, and the exit-code default `success := true` is skipped because a
`response` is present, although the JSON set nothing. -/
theorem exit_zero_unrecognized_json_not_success :
    (commandExitClassify ("h") (some 0) ("\x7b\"foo\":\"bar\"\x7d") ("")
        parseNoDecision).success = false ∧
    (commandExitClassify ("h") (some 0) ("\x7b\"foo\":\"bar\"\x7d") ("")
        parseNoDecision).exitCode = some 0 ∧
    (commandExitClassify ("h") (some 0) ("\x7b\"foo\":\"bar\"\x7d") ("")
        parseNoDecision).response
      = some { decision := none, reason := none } ∧
    (commandExitClassify ("h") (some 0) ("\x7b\"foo\":\"bar\"\x7d") ("")
        parseNoDecision).blockExecution = none ∧
    (externalExitClassify ("h") (some 0) ("\x7b\"foo\":\"bar\"\x7d") ("")
        parseNoDecision).success = false := by
  decide

/-- C7 (violation witness): inside the velcro runner, `process.exit(n)` is
intercepted and converted into a thrown signal carrying `n`, but the catch
clause maps the signal through `exitCode || EXIT_CODE.ERROR`, so for `n = 0`
the subprocess exits with status 1, not 0, and the parent classifies the
invocation as a non-blocking failure instead of a success.  For `n = 2` and
other nonzero `n` the status is `n` as the claim states. -/
theorem velcro_exit_zero_intercepted_to_error :
    (wrappedProcessExit (some 0)).exitCode = some 0 ∧
    runnerExitStatus (.exitCalled (some 0)) = 1 ∧
    (velcroExitClassify ("h") (some (runnerExitStatus (.exitCalled (some 0))))
        ("") ("")).success = false ∧
    (velcroExitClassify ("h") (some (runnerExitStatus (.exitCalled (some 0))))
        ("") ("")).blockExecution = none ∧
    runnerExitStatus (.exitCalled (some 2)) = 2 ∧
    runnerExitStatus (.exitCalled (some 5)) = 5 ∧
    runnerExitStatus .completed = 0 := by
  decide

/-- What one loop iteration appends to `results`. -/
theorem processOne_results (st : HookLoopState) (p : Handler × Settled) :
    (processOne st p).results = st.results ++ [settleOne p] := by
  rcases p with ⟨h, s⟩
  cases s with
  | fulfilled r =>
    simp only [processOne, settleOne]
    split <;> rfl
  | rejected msg => rfl

/-- How one loop iteration updates the `blocked` flag. -/
theorem processOne_blocked (st : HookLoopState) (p : Handler × Settled) :
    (processOne st p).blocked = (st.blocked || (blockingEntry p).isSome) := by
  rcases p with ⟨h, s⟩
  cases s with
  | fulfilled r =>
    simp only [processOne, blockingEntry]
    split <;> simp
  | rejected msg => simp [processOne, blockingEntry]

/-- How one loop iteration updates `blockingResult`: a blocking entry
overwrites it. -/
theorem processOne_blockingResult (st : HookLoopState) (p : Handler × Settled) :
    (processOne st p).blockingResult
      = ((blockingEntry p).or st.blockingResult) := by
  rcases p with ⟨h, s⟩
  cases s with
  | fulfilled r =>
    simp only [processOne, blockingEntry]
    split <;> simp
  | rejected msg => simp [processOne, blockingEntry]

/-- The loop's `results` are the settled entries, one per handler, in
resolution order. -/
theorem processHookResults_results (pairs : List (Handler × Settled)) :
    (processHookResults pairs).results = pairs.map settleOne := by
  induction pairs using List.reverseRecOn with
  | nil => rfl
  | append_singleton l p ih =>
    simp only [processHookResults, List.foldl_append, List.foldl_cons,
      List.foldl_nil] at ih ⊢
    rw [processOne_results, ih, List.map_append]
    rfl

/-- The loop's `blocked` flag is set exactly when some fulfilled result
blocks. -/
theorem processHookResults_blocked (pairs : List (Handler × Settled)) :
    (processHookResults pairs).blocked = !(blockingList pairs).isEmpty := by
  induction pairs using List.reverseRecOn with
  | nil => rfl
  | append_singleton l p ih =>
    simp only [processHookResults, List.foldl_append, List.foldl_cons,
      List.foldl_nil] at ih ⊢
    rw [processOne_blocked, ih]
    simp only [blockingList, List.filterMap_append]
    cases hbe : blockingEntry p <;>
      cases hl : List.filterMap blockingEntry l <;>
        simp [List.filterMap_cons, hbe, hl]

/-- The loop's final `blockingResult` is the LAST blocking fulfilled result
in resolution order. -/
theorem processHookResults_blockingResult (pairs : List (Handler × Settled)) :
    (processHookResults pairs).blockingResult
      = (blockingList pairs).getLast? := by
  induction pairs using List.reverseRecOn with
  | nil => rfl
  | append_singleton l p ih =>
    simp only [processHookResults, List.foldl_append, List.foldl_cons,
      List.foldl_nil] at ih ⊢
    rw [processOne_blockingResult, ih]
    simp only [blockingList, List.filterMap_append]
    cases hbe : blockingEntry p <;>
      simp [List.filterMap_cons, hbe, List.getLast?_concat]

/-- The response's overall `success` is the negation of the loop's `blocked`
flag, untouched by the later output/responses updates. -/
theorem buildHookResponse_success (st : HookLoopState) :
    (buildHookResponse st).success = !st.blocked := by
  rcases st with ⟨res, bl, bro⟩
  rcases bro with _ | ⟨⟨h, s, o, e, x, resp, blk, err, d⟩⟩
  · simp [buildHookResponse, apply_ite (HookResponse.success)]
  · cases resp <;>
      simp [buildHookResponse, apply_ite (HookResponse.success)]

/-- The response's `handlers` count is the number of result entries. -/
theorem buildHookResponse_handlers (st : HookLoopState) :
    (buildHookResponse st).handlers = st.results.length := by
  rcases st with ⟨res, bl, bro⟩
  rcases bro with _ | ⟨⟨h, s, o, e, x, resp, blk, err, d⟩⟩
  · simp [buildHookResponse, apply_ite (HookResponse.handlers)]
  · cases resp <;>
      simp [buildHookResponse, apply_ite (HookResponse.handlers)]

/-- When the loop ended blocked with `blockingResult = some br`, the blocked
response fields all come from `br`. -/
theorem buildHookResponse_blocking_fields (st : HookLoopState)
    (br : HookExecutionResult) (hb : st.blocked = true)
    (hbr : st.blockingResult = some br) :
    (buildHookResponse st).blocked = some true ∧
    (buildHookResponse st).blockingHandler = some br.handler ∧
    (∀ cg, br.response = some cg →
      (buildHookResponse st).decision = cg.decision ∧
      (buildHookResponse st).reason = cg.reason) ∧
    (br.response = none →
      (buildHookResponse st).blockingMessage
        = some (jsOrStr br.stderr ("Operation blocked"))) := by
  refine ⟨?_, ?_, ?_, ?_⟩
  · cases hresp : br.response <;>
      simp [buildHookResponse, hb, hbr, hresp,
        apply_ite (HookResponse.blocked)]
  · cases hresp : br.response <;>
      simp [buildHookResponse, hb, hbr, hresp,
        apply_ite (HookResponse.blockingHandler)]
  · intro cg hcg
    constructor <;>
      simp [buildHookResponse, hb, hbr, hcg,
        apply_ite (HookResponse.decision), apply_ite (HookResponse.reason)]
  · intro hresp
    simp [buildHookResponse, hb, hbr, hresp,
      apply_ite (HookResponse.blockingMessage)]

/-- C2 (amended): when at least one handler result has
`blockExecution = true` the aggregated decision is blocked
(`success = false`, `blocked = true`), and the blocking handler and
user-facing reason reported to the caller are those of the LAST blocking
result in resolution order — the `/hooks` loop overwrites `blockingResult`
on every blocking entry, so a later blocker supersedes an earlier one. -/
theorem blocked_decision_last_blocker_reports :
    ∀ (pairs : List (Handler × Settled)) (r : HookExecutionResult),
      (blockingList pairs).getLast? = some r →
      (buildHookResponse (processHookResults pairs)).success = false ∧
      (buildHookResponse (processHookResults pairs)).blocked = some true ∧
      (buildHookResponse (processHookResults pairs)).blockingHandler
        = some r.handler ∧
      (∀ cg, r.response = some cg →
        (buildHookResponse (processHookResults pairs)).decision = cg.decision ∧
        (buildHookResponse (processHookResults pairs)).reason = cg.reason) ∧
      (r.response = none →
        (buildHookResponse (processHookResults pairs)).blockingMessage
          = some (jsOrStr r.stderr ("Operation blocked"))) := by
  intro pairs r hlast
  have hb : (processHookResults pairs).blocked = true := by
    rw [processHookResults_blocked]
    cases hbl : blockingList pairs with
    | nil => rw [hbl] at hlast; simp at hlast
    | cons a l => simp
  have hbr : (processHookResults pairs).blockingResult = some r := by
    rw [processHookResults_blockingResult, hlast]
  have hf := buildHookResponse_blocking_fields (processHookResults pairs) r
    hb hbr
  refine ⟨?_, hf.1, hf.2.1, hf.2.2.1, hf.2.2.2⟩
  rw [buildHookResponse_success, hb]
  rfl

/-- C2 counterexample to the claim as stated: with two blocking results in
resolution order `a` then `b`, the response reports handler `b` and its
stderr `rb` — the LAST blocking result, not the first. -/
theorem first_blocker_reported_refuted :
    twoBlockPairs.map settleOne = [blockResultA, blockResultB] ∧
    blockResultA.blockExecution = some true ∧
    (buildHookResponse (processHookResults twoBlockPairs)).blockingHandler
        = some ("b") ∧
    (buildHookResponse (processHookResults twoBlockPairs)).blockingHandler
        ≠ some ("a") ∧
    (buildHookResponse (processHookResults twoBlockPairs)).blockingMessage
        = some ("rb") := by
  decide

/-- C2 witness: the amended theorem applied to the concrete two-blocker
run. -/
theorem blocked_decision_last_blocker_witness :
    (blockingList twoBlockPairs).getLast? = some blockResultB ∧
    (buildHookResponse (processHookResults twoBlockPairs)).success = false ∧
    (buildHookResponse (processHookResults twoBlockPairs)).blockingHandler
        = some ("b") := by
  have t := blocked_decision_last_blocker_reports twoBlockPairs blockResultB
    (by decide)
  exact ⟨by decide, t.1, t.2.2.1⟩

/-- C8: the `Promise.allSettled` aggregation never drops an entry: the
result list has exactly one entry per resolved handler, in resolution order;
a rejected execution contributes an entry with `success = false` carrying its
error message; an entry depends only on its own settled outcome, and a
rejection neither blocks nor affects which other entries block. -/
theorem settle_all_aggregation :
    ∀ pairs : List (Handler × Settled),
      (processHookResults pairs).results.length = pairs.length ∧
      (processHookResults pairs).results = pairs.map settleOne ∧
      (∀ (h : Handler) (msg : String),
        settleOne (h, Settled.rejected msg) =
          { handler := h.name, success := false, error := some msg,
            duration := 0 }) ∧
      (∀ (xs ys : List (Handler × Settled)) (h : Handler) (msg : String),
        blockingList (xs ++ (h, Settled.rejected msg) :: ys)
          = blockingList (xs ++ ys)) ∧
      (processHookResults pairs).blocked = !(blockingList pairs).isEmpty := by
  intro pairs
  refine ⟨?_, processHookResults_results pairs, ?_, ?_,
    processHookResults_blocked pairs⟩
  · rw [processHookResults_results]
    simp
  · intro h msg
    rfl
  · intro xs ys h msg
    simp [blockingList, List.filterMap_append, List.filterMap_cons,
      blockingEntry]

/-- C5: matcher semantics.  For an event carrying a (nonempty) tool name:
pattern `""` or `"*"` matches unconditionally; any other pattern is tested as
a compiled regular expression against the tool name; a pattern that fails to
compile is fail-open (matches, with a diagnostic emitted).  For an event with
no tool name (or an empty one): exactly the patterns `""`/`"*"` match, any
other pattern is fail-closed; and an absent matcher never causes a skip. -/
theorem matcher_semantics :
    ∀ (rc : String → Option (String → Bool)) (p tool : String),
      tool ≠ "" →
      ((p = "" ∨ p = "*") → matchesFilter rc p (some tool) = (true, false)) ∧
      (∀ test, ¬(p = "" ∨ p = "*") → rc p = some test →
        matchesFilter rc p (some tool) = (test tool, false)) ∧
      (¬(p = "" ∨ p = "*") → rc p = none →
        matchesFilter rc p (some tool) = (true, true)) ∧
      (∀ tn : Option String, tn = none ∨ tn = some "" →
        ((matchesFilter rc p tn).1 = true ↔ (p = "" ∨ p = "*"))) ∧
      (∀ (h : Handler) (tn : Option String), h.matcher = none →
        matcherSkips rc h tn = false) := by
  intro rc p tool htool
  refine ⟨?_, ?_, ?_, ?_, ?_⟩
  · intro hp
    rcases hp with rfl | rfl <;> simp [matchesFilter, htool]
  · intro test hne hrc
    push_neg at hne
    simp [matchesFilter, htool, hne.1, hne.2, hrc]
  · intro hne hrc
    push_neg at hne
    simp [matchesFilter, htool, hne.1, hne.2, hrc]
  · intro tn htn
    rcases htn with rfl | rfl <;> simp [matchesFilter]
  · intro h tn hm
    simp [matcherSkips, hm]

/-- C5 witness: the matcher clauses evaluated at concrete inputs using the
exact-comparison regex oracle. -/
theorem matcher_semantics_witness :
    matchesFilter rcLiteral ("*") (some ("Write")) = (true, false) ∧
    matchesFilter rcLiteral ("Xyz") (some ("Tool")) = (false, false) ∧
    ((matchesFilter rcLiteral ("Xyz") none).1 = true ↔
      (("Xyz" : String) = "" ∨ ("Xyz" : String) = "*")) := by
  have t := matcher_semantics rcLiteral ("Xyz") ("Tool") (by decide)
  have t2 := matcher_semantics rcLiteral ("*") ("Write") (by decide)
  refine ⟨t2.1 (Or.inr rfl), ?_, t.2.2.2.1 none (Or.inl rfl)⟩
  have h2 := t.2.1 (fun s => s == ("Xyz")) (by decide) rfl
  simpa using h2

/-- C6: effective enablement follows strict precedence
session > project > global: a session override alone decides; with no
session override (and the hook type matching) the project configuration
decides, a disabled-list entry beating an enabled-list entry, an enabled-list
entry beating the handler's own flag, and the handler's own `enabled` flag
deciding when neither list names it; concretely, `h1` with global
`enabled = false` but named in the project include list is resolved, and a
session disable then excludes it despite both lower layers. -/
theorem enablement_precedence :
    (∀ (sessions : SessionMap) (project : Option ProjectConfig)
        (h : Handler) (hd : HookData) (b : Bool),
      isHookEnabledForSession sessions hd.session_id h.name = some b →
      shouldRunHandler sessions project h hd = b) ∧
    (∀ (sessions : SessionMap) (project : Option ProjectConfig)
        (h : Handler) (hd : HookData),
      isHookEnabledForSession sessions hd.session_id h.name = none →
      h.hooks.contains hd.hook_event_name = true →
      shouldRunHandler sessions project h hd
        = isHandlerEnabled project h.name h.enabled) ∧
    (∀ (hk : ProjectHookConfig) (name : String) (g : Bool),
      (hk.disabled.getD []).contains name = true →
      isHandlerEnabled (some { hooks := some hk }) name g = false) ∧
    (∀ (hk : ProjectHookConfig) (name : String) (g : Bool),
      (hk.disabled.getD []).contains name = false →
      (hk.enabled.getD []).contains name = true →
      isHandlerEnabled (some { hooks := some hk }) name g = true) ∧
    (∀ (hk : ProjectHookConfig) (name : String) (g : Bool),
      (hk.disabled.getD []).contains name = false →
      (hk.enabled.getD []).contains name = false →
      isHandlerEnabled (some { hooks := some hk }) name g = g) ∧
    (∀ (name : String) (g : Bool), isHandlerEnabled none name g = g) ∧
    resolveHandlers [offHandler] [] (some projIncludesH1) evPre
      = [offHandler] ∧
    resolveHandlers [offHandler] sessionDisablesH1 (some projIncludesH1) evPre
      = [] := by
  refine ⟨?_, ?_, ?_, ?_, ?_, ?_, by decide, by decide⟩
  · intro sessions project h hd b hover
    simp [shouldRunHandler, hover]
  · intro sessions project h hd hover hmem
    have hcond : ¬((!(h.hooks.contains hd.hook_event_name)) = true) := by
      rw [hmem]
      decide
    simp only [shouldRunHandler, hover]
    rw [if_neg hcond]
  · intro hk name g hdis
    simp only [isHandlerEnabled]
    rw [hdis]
    simp
  · intro hk name g hdis hen
    simp only [isHandlerEnabled]
    rw [hdis, hen]
    simp
  · intro hk name g hdis hen
    simp only [isHandlerEnabled]
    rw [hdis, hen]
    simp
  · intro name g
    rfl

/-- C6 witness: the session-override clause applied to the concrete
session-disable scenario. -/
theorem enablement_precedence_witness :
    isHookEnabledForSession sessionDisablesH1 ("s") ("h1") = some false ∧
    shouldRunHandler sessionDisablesH1 (some projIncludesH1) offHandler evPre
      = false := by
  exact ⟨by decide,
    enablement_precedence.1 sessionDisablesH1 (some projIncludesH1)
      offHandler evPre false (by decide)⟩

/-- C9 counterexample to the claim as stated: for the concrete
matcher-skipped invocation the result is terminal with `success = true` and
no subprocess is spawned, but execution statistics ARE recorded — the
`finally` block calls `statsManager.recordExecution` on the skip path too,
refuting "no statistics are recorded for the skipped invocation". -/
theorem matcher_skip_records_stats :
    (executeModel rcLiteral okBranch matcherHandler evTool 5).1.success
        = true ∧
    (executeModel rcLiteral okBranch matcherHandler evTool 5).2
        = [.logged ("Handler m skipped due to matcher"),
           .statsRecorded ("m") 5 true none] ∧
    ExecEffect.statsRecorded ("m") 5 true none
        ∈ (executeModel rcLiteral okBranch matcherHandler evTool 5).2 := by
  decide

/-- C9 (amended): a matcher-rejected invocation returns a terminal result
with `success = true`, spawns no subprocess and runs no handler code (the
only effects are the debug log line and the statistics record), but the
guaranteed finalization step still records the skipped invocation in
statistics as a successful execution with its duration. -/
theorem matcher_skip_success_no_spawn_stats_recorded :
    ∀ (rc : String → Option (String → Bool))
      (branch : Except ThrownErr (HookExecutionResult × List ExecEffect))
      (h : Handler) (hd : HookData) (elapsed : Nat) (m : String),
      h.matcher = some m →
      (matchesFilter rc m hd.tool_name).1 = false →
      executeModel rc branch h hd elapsed =
        ({ handler := h.name, success := true, duration := elapsed },
         [.logged ("Handler " ++ h.name ++ " skipped due to matcher"),
          .statsRecorded h.name elapsed true none]) := by
  intro rc branch h hd elapsed m hm hmf
  have hskip : matcherSkips rc h hd.tool_name = true := by
    simp [matcherSkips, hm, hmf]
  simp [executeModel, hskip]

/-- C9 witness: the amended theorem applied to the concrete skipped
invocation. -/
theorem matcher_skip_success_witness :
    (executeModel rcLiteral okBranch matcherHandler evTool 7).1.success
      = true := by
  rw [matcher_skip_success_no_spawn_stats_recorded rcLiteral okBranch
    matcherHandler evTool 7 ("OtherTool") (by decide) (by decide)]

/-- C10: `execute` never throws or rejects — it is a total function into
results; on every path, including exceptional ones, `duration` is set by the
`finally` block; whenever the dispatch throws (missing payload for the
declared type, unknown type, or a failing branch), the result has
`success = false` and carries the fault's message in `error`. -/
theorem execute_never_throws :
    ∀ (rc : String → Option (String → Bool))
      (branch : Except ThrownErr (HookExecutionResult × List ExecEffect))
      (h : Handler) (hd : HookData) (elapsed : Nat),
      (executeModel rc branch h hd elapsed).1.duration = elapsed ∧
      (∀ e, dispatch h branch = .error e →
        matcherSkips rc h hd.tool_name = false →
        (executeModel rc branch h hd elapsed).1.success = false ∧
        (executeModel rc branch h hd elapsed).1.error = some e.message) ∧
      (matcherSkips rc h hd.tool_name = false → h.type = "velcro" →
        h.code = none →
        (executeModel rc branch h hd elapsed).1.success = false ∧
        (executeModel rc branch h hd elapsed).1.error
          = some ("Velcro handler " ++ h.name ++ " has no code")) ∧
      (matcherSkips rc h hd.tool_name = false → h.type = "command" →
        h.command = none →
        (executeModel rc branch h hd elapsed).1.success = false ∧
        (executeModel rc branch h hd elapsed).1.error
          = some ("Command handler " ++ h.name ++ " has no command")) ∧
      (matcherSkips rc h hd.tool_name = false → h.type = "script" →
        h.script = none →
        (executeModel rc branch h hd elapsed).1.success = false ∧
        (executeModel rc branch h hd elapsed).1.error
          = some ("Script handler " ++ h.name ++ " has no script path")) ∧
      (matcherSkips rc h hd.tool_name = false → h.type ≠ "velcro" →
        h.type ≠ "command" → h.type ≠ "script" → h.type ≠ "function" →
        h.type ≠ "external" →
        (executeModel rc branch h hd elapsed).1.success = false ∧
        (executeModel rc branch h hd elapsed).1.error
          = some ("Unknown handler type: " ++ h.type)) := by
  intro rc branch h hd elapsed
  refine ⟨?_, ?_, ?_, ?_, ?_, ?_⟩
  · cases hs : matcherSkips rc h hd.tool_name
    · cases hdp : dispatch h branch with
      | ok v =>
        rcases v with ⟨r, effs⟩
        simp [executeModel, hs, hdp]
      | error e => simp [executeModel, hs, hdp]
    · simp [executeModel, hs]
  · intro e hdp hs
    simp [executeModel, hs, hdp]
  · intro hs htype hcode
    have hdp : dispatch h branch
        = .error { message := "Velcro handler " ++ h.name ++ " has no code" } := by
      simp [dispatch, htype, hcode]
    simp [executeModel, hs, hdp]
  · intro hs htype hcmd
    have hdp : dispatch h branch
        = .error { message := "Command handler " ++ h.name ++ " has no command" } := by
      simp [dispatch, htype, hcmd]
    simp [executeModel, hs, hdp]
  · intro hs htype hscript
    have hdp : dispatch h branch
        = .error { message := "Script handler " ++ h.name ++ " has no script path" } := by
      simp [dispatch, htype, hscript]
    simp [executeModel, hs, hdp]
  · intro hs h1 h2 h3 h4 h5
    have hdp : dispatch h branch
        = .error { message := "Unknown handler type: " ++ h.type } := by
      simp [dispatch, h1, h2, h3, h4, h5]
    simp [executeModel, hs, hdp]

/-- C10 witness: an unknown handler type at a concrete invocation resolves
to a failure result with the fault message and its duration set. -/
theorem execute_never_throws_witness :
    (executeModel rcLiteral okBranch unknownTypeHandler evPre 3).1.duration
        = 3 ∧
    (executeModel rcLiteral okBranch unknownTypeHandler evPre 3).1.success
        = false ∧
    (executeModel rcLiteral okBranch unknownTypeHandler evPre 3).1.error
        = some ("Unknown handler type: " ++ "weird") := by
  have t := execute_never_throws rcLiteral okBranch unknownTypeHandler evPre 3
  have tu := t.2.2.2.2.2 (by decide) (by decide) (by decide) (by decide)
    (by decide) (by decide)
  exact ⟨t.1, tu.1, tu.2⟩

end Velcro
